import Mathlib

/- Verification of the tri-table mineral-rights record store
   (reserve / offering / deal) of src/db.py.

   The sqlite database is embedded shallowly as an explicit in-memory
   state: a table is a list of rows in insertion order, a row is an
   integer primary key plus an association list for the 25 non-id
   columns.  sqlite behaviour that the program relies on is made
   explicit: rowid assignment for an INTEGER PRIMARY KEY given NULL,
   the NOT NULL constraint on `name`, per-table uniqueness of `id`,
   and transaction rollback (an operation that fails before commit
   returns the unchanged state).  Python-level behaviour is modelled
   faithfully as well: `data.get(col, None)` for dict access, and the
   fact that `add_full_record` evaluates `int(data["id"])` only AFTER
   the commit. -/

deriving instance DecidableEq for Except

namespace TriDB

/-- A storage value as used by this program: SQL NULL (Python None), an
integer, or a text value.  The REAL/DATE columns carry opaque payloads
here (no arithmetic is ever performed on them), so every non-null
payload is an `int` or a `text`. -/
inductive Value where
  | null : Value
  | int : Int → Value
  | text : String → Value
deriving DecidableEq

/-- A Python dict from column name to value, as passed to the insert and
update operations.  A key can be present with value `null` (Python None),
which is different from the key being absent. -/
abbrev Dict := List (String × Value)

/-- Python `d[k]` lookup outcome: `some v` iff the key is present. -/
def dictGet (d : Dict) (k : String) : Option Value :=
  d.lookup k

/-- Python `d.get(k, None)`, mapped into SQL: a missing key binds NULL. -/
def dictGetOrNull (d : Dict) (k : String) : Value :=
  (dictGet d k).getD .null

/-- ALL_COLUMNS from src/db.py: the shared column order of the three
identically-shaped tables. -/
def ALL_COLUMNS : List String :=
  ["id", "name", "region", "mineral_type", "area", "quantity",
   "recommendations", "coordinates", "transfer_conditions",
   "announcement_date", "annual_transfer_batch", "proj_source",
   "start_price", "transaction_date", "transaction_price",
   "payable_price", "success_bidder", "contact_name",
   "social_credit_code", "contact_number", "company_address",
   "transfer_authority", "contract_number", "contract_signing_date",
   "payment_deadline", "actual_payment_date"]

/-- The non-id columns in order: `[c for c in ALL_COLUMNS if c != "id"]`
in update_full_record, and the same 25 names spelled out in the SELECT
and INSERT column lists of the two transfer functions. -/
def NONID_COLUMNS : List String :=
  ALL_COLUMNS.filter (fun c => c != "id")

/-- A stored row: the INTEGER PRIMARY KEY plus the 25 non-id columns
(kept as an association list in NONID_COLUMNS order). -/
structure Row where
  id : Int
  fields : List (String × Value)
deriving DecidableEq

/-- A table is its list of rows in storage (insertion) order. -/
abbrev Table := List Row

/-- The whole database file: the three stage tables. -/
structure DB where
  reserve : Table
  offering : Table
  deal : Table
deriving DecidableEq

/-- The state right after init_db on a fresh file: three empty tables. -/
def emptyDB : DB := ⟨[], [], []⟩

/-- Error outcomes.  `invalidTable` and `notFound` are raised as Python
ValueError; `uniqueViolation`, `notNullViolation` and `datatypeMismatch`
are sqlite constraint errors; `keyError` and `typeError` arise from
`int(data["id"])` when the dict lacks the key resp. holds None;
`transactionFailure` stands for an injected storage fault inside a
transfer transaction. -/
inductive DBError where
  | invalidTable
  | notFound
  | uniqueViolation
  | notNullViolation
  | datatypeMismatch
  | keyError
  | typeError
  | transactionFailure
deriving DecidableEq

/-- `table in {"reserve", "offering", "deal"}`. -/
def validTable (t : String) : Bool :=
  t == "reserve" || t == "offering" || t == "deal"

/-- The table selected by a (valid) table name. -/
def DB.table (db : DB) (t : String) : Table :=
  if t = "reserve" then db.reserve
  else if t = "offering" then db.offering
  else db.deal

/-- Replace the table selected by a (valid) table name. -/
def DB.setTable (db : DB) (t : String) (tbl : Table) : DB :=
  if t = "reserve" then { db with reserve := tbl }
  else if t = "offering" then { db with offering := tbl }
  else { db with deal := tbl }

/-- Value of a named non-id column of a row (absent keys read as NULL;
rows built by the operations below always carry all 25 keys). -/
def fieldGet (fs : List (String × Value)) (c : String) : Value :=
  (fs.lookup c).getD .null

/-- `SELECT ... WHERE id = ?` on a column list: the id column is the
primary key, the rest come from the stored fields. -/
def rowGet (r : Row) (c : String) : Value :=
  if c = "id" then .int r.id else fieldGet r.fields c

/-- The unique row with the given primary key, if any. -/
def lookupRow (tbl : Table) (i : Int) : Option Row :=
  tbl.find? (fun r => r.id == i)

/-- Whether a row with the given id exists in the table. -/
def hasId (tbl : Table) (i : Int) : Bool :=
  (lookupRow tbl i).isSome

/-- Largest rowid present in a table. -/
def tableMax : Table → Option Int
  | [] => none
  | r :: rest =>
    match tableMax rest with
    | none => some r.id
    | some m => some (max r.id m)

/-- sqlite rowid assignment for an INTEGER PRIMARY KEY given NULL: one
more than the largest rowid in the table, or 1 for an empty table.  (The
randomized fallback at the 2^63-1 ceiling is not modelled; ids stay
small here.) -/
def freshId (tbl : Table) : Int :=
  match tableMax tbl with
  | none => 1
  | some m => m + 1

/-- get_record from src/db.py: validate the table name, SELECT the
requested columns WHERE id = ?, raise ValueError when no row matches.
Python `cols or ALL_COLUMNS` also replaces an empty list by ALL_COLUMNS.
Column names outside the schema would be a sqlite error; callers here
pass schema columns only. -/
def get_record (db : DB) (table : String) (id_ : Int)
    (cols : Option (List String)) : Except DBError Dict :=
  if validTable table then
    let cs := match cols with
      | none => ALL_COLUMNS
      | some [] => ALL_COLUMNS
      | some cs => cs
    match lookupRow (db.table table) id_ with
    | none => .error .notFound
    | some r => .ok (cs.map (fun c => (c, rowGet r c)))
  else .error .invalidTable

/-- The `return int(data["id"])` step of add_full_record, evaluated only
after the INSERT has been committed: a missing key raises KeyError,
None raises TypeError, a non-numeric string raises (collapsed here with
TypeError; that branch is unreachable because a text id already fails
the INSERT). -/
def pyIntOfId (data : Dict) : Except DBError Int :=
  match dictGet data "id" with
  | none => .error .keyError
  | some .null => .error .typeError
  | some (.int i) => .ok i
  | some (.text s) =>
    match s.toInt? with
    | some i => .ok i
    | none => .error .typeError

/-- The row an INSERT of `data` produces: id from the key assignment,
every non-id column bound to `data.get(col, None)`. -/
def insertRow (i : Int) (data : Dict) : Row :=
  ⟨i, NONID_COLUMNS.map (fun c => (c, dictGetOrNull data c))⟩

/-- add_full_record from src/db.py.  Values for ALL_COLUMNS are built
via `data.get(col, None)` and INSERTed.  sqlite checks NOT NULL on
`name`; the INTEGER PRIMARY KEY slot then treats NULL as "assign a
fresh rowid", an existing id as a uniqueness violation, and a text id
as a datatype mismatch (sqlite numeric-text affinity is not modelled;
no claim exercises it).  The commit happens BEFORE `int(data["id"])`
is evaluated, so a KeyError/TypeError there is raised with the new row
already persisted. -/
def add_full_record (db : DB) (table : String) (data : Dict) :
    DB × Except DBError Int :=
  if validTable table then
    let tbl := db.table table
    if dictGetOrNull data "name" = .null then (db, .error .notNullViolation)
    else
      match dictGetOrNull data "id" with
      | .text _ => (db, .error .datatypeMismatch)
      | .int i =>
        if hasId tbl i then (db, .error .uniqueViolation)
        else (db.setTable table (tbl ++ [insertRow i data]), pyIntOfId data)
      | .null =>
        (db.setTable table (tbl ++ [insertRow (freshId tbl) data]),
         pyIntOfId data)
  else (db, .error .invalidTable)

/-- add_record from src/db.py: INSERT (id, name, quantity); every other
column is NULL.  `name` and `quantity` are annotated str in Python but
not enforced, so they are modelled as arbitrary values (None included);
a failed INSERT leaves the table unchanged (IntegrityError is re-raised
and the connection is closed without commit). -/
def add_record (db : DB) (table : String) (id_ : Int)
    (name quantity : Value) : DB × Except DBError Int :=
  if validTable table then
    let tbl := db.table table
    if name = .null then (db, .error .notNullViolation)
    else if hasId tbl id_ then (db, .error .uniqueViolation)
    else
      let row : Row :=
        ⟨id_, NONID_COLUMNS.map (fun c =>
          (c, if c = "name" then name
              else if c = "quantity" then quantity else .null))⟩
      (db.setTable table (tbl ++ [row]), .ok id_)
  else (db, .error .invalidTable)

/-- The fields an UPDATE writes: every non-id column set to
`data.get(col, None)`. -/
def updateFields (data : Dict) : List (String × Value) :=
  NONID_COLUMNS.map (fun c => (c, dictGetOrNull data c))

/-- update_full_record from src/db.py: one UPDATE statement setting
every non-id column to `data.get(col, None)` WHERE id = ?.  When no row
matches, 0 rows are affected and no constraint fires; when a row
matches, NOT NULL on `name` is checked and a violation aborts the whole
statement (the connection is closed without commit, table unchanged).
Returns cursor.rowcount. -/
def update_full_record (db : DB) (table : String) (id_ : Int)
    (data : Dict) : DB × Except DBError Int :=
  if validTable table then
    let tbl := db.table table
    if hasId tbl id_ then
      if dictGetOrNull data "name" = .null then (db, .error .notNullViolation)
      else
        let tbl' := tbl.map (fun r =>
          if r.id == id_ then ⟨r.id, updateFields data⟩ else r)
        (db.setTable table tbl', .ok 1)
    else (db, .ok 0)
  else (db, .error .invalidTable)

/-- delete_record from src/db.py: DELETE WHERE id = ?; returns
cursor.rowcount (1 when the id existed, else 0). -/
def delete_record (db : DB) (table : String) (id_ : Int) :
    DB × Except DBError Int :=
  if validTable table then
    let tbl := db.table table
    (db.setTable table (tbl.filter (fun r => r.id != id_)),
     .ok (if hasId tbl id_ then (1 : Int) else 0))
  else (db, .error .invalidTable)

/-- The default column list spelled out inside list_table (src/db.py
line 256); its docstring instead promises only id, name, quantity. -/
def defaultListCols : List String :=
  ["id", "name", "region", "mineral_type", "area", "quantity",
   "recommendations", "coordinates", "transfer_conditions",
   "announcement_date", "annual_transfer_batch", "proj_source",
   "start_price", "transaction_date", "transaction_price",
   "payable_price", "success_bidder", "contact_name",
   "social_credit_code", "contact_number", "company_address",
   "transfer_authority", "contract_number", "contract_signing_date",
   "payment_deadline", "actual_payment_date"]

/-- Row order of `ORDER BY id` (ascending). -/
def rowLE (a b : Row) : Prop := a.id ≤ b.id

instance : DecidableRel rowLE := fun a b =>
  inferInstanceAs (Decidable (a.id ≤ b.id))

instance : IsTotal Row rowLE := ⟨fun a b => Int.le_total a.id b.id⟩

instance : IsTrans Row rowLE := ⟨fun _ _ _ h₁ h₂ => le_trans h₁ h₂⟩

/-- The rows of a table in `ORDER BY id` order. -/
def sortById (tbl : Table) : Table :=
  List.insertionSort rowLE tbl

/-- list_table from src/db.py: `SELECT cols FROM table ORDER BY id` over
all rows; `cols is None` selects the spelled-out default list (an
explicitly supplied empty list would be a sqlite syntax error; callers
pass None or a nonempty list). -/
def list_table (db : DB) (table : String) (cols : Option (List String)) :
    Except DBError (List (List Value)) :=
  if validTable table then
    let cs := cols.getD defaultListCols
    .ok ((sortById (db.table table)).map (fun r => cs.map (rowGet r)))
  else .error .invalidTable

/-- An injected storage fault at one of the statements of a transfer
transaction after the source row has been read: the INSERT into the
destination, the DELETE from the source, or the COMMIT itself.  The
except-branch of both transfer functions calls conn.rollback() on any
exception, so the committed state stays the pre-call state. -/
inductive Fault where
  | onInsert
  | onDelete
  | onCommit
deriving DecidableEq

/-- Common body of the two transfer functions, on (source, destination)
tables: BEGIN; SELECT the 25 non-id columns of the source row (absent →
rollback and ValueError); INSERT them into the destination, which
assigns rowid `freshId`; DELETE the source row; COMMIT.  Any injected
fault — and any constraint failure of the INSERT, of which only NOT
NULL on `name` can fire, the fresh rowid being collision-free — rolls
the transaction back, leaving both tables as given. -/
def transferRun (src dst : Table) (rid : Int) (fault : Option Fault) :
    (Table × Table) × Except DBError Int :=
  match lookupRow src rid with
  | none => ((src, dst), .error .notFound)
  | some r =>
    match fault with
    | some _ => ((src, dst), .error .transactionFailure)
    | none =>
      if fieldGet r.fields "name" = .null then
        ((src, dst), .error .notNullViolation)
      else
        let newRow : Row :=
          ⟨freshId dst, NONID_COLUMNS.map (fun c => (c, fieldGet r.fields c))⟩
        ((src.filter (fun x => x.id != rid), dst ++ [newRow]),
         .ok newRow.id)

/-- move_reserve_to_offering from src/db.py, with an optional injected
fault; the deal table is never part of the transaction. -/
def move_reserve_to_offering_run (db : DB) (reserve_id : Int)
    (fault : Option Fault) : DB × Except DBError Int :=
  let p := transferRun db.reserve db.offering reserve_id fault
  ({ db with reserve := p.1.1, offering := p.1.2 }, p.2)

/-- move_reserve_to_offering as called by the application (no fault). -/
def move_reserve_to_offering (db : DB) (reserve_id : Int) :
    DB × Except DBError Int :=
  move_reserve_to_offering_run db reserve_id none

/-- move_offering_to_deal from src/db.py, with an optional injected
fault; the reserve table is never part of the transaction. -/
def move_offering_to_deal_run (db : DB) (offering_id : Int)
    (fault : Option Fault) : DB × Except DBError Int :=
  let p := transferRun db.offering db.deal offering_id fault
  ({ db with offering := p.1.1, deal := p.1.2 }, p.2)

/-- move_offering_to_deal as called by the application (no fault). -/
def move_offering_to_deal (db : DB) (offering_id : Int) :
    DB × Except DBError Int :=
  move_offering_to_deal_run db offering_id none

/-- One call into the data layer, for the reachability model of the
database states the core operations can produce (get and list are
read-only). -/
inductive Op where
  | opGet (t : String) (i : Int) (cols : Option (List String))
  | opAddFull (t : String) (d : Dict)
  | opAdd (t : String) (i : Int) (name quantity : Value)
  | opUpdate (t : String) (i : Int) (d : Dict)
  | opDelete (t : String) (i : Int)
  | opList (t : String) (cols : Option (List String))
  | opMoveRO (i : Int) (f : Option Fault)
  | opMoveOD (i : Int) (f : Option Fault)

/-- The database state after one call (successful or failing). -/
def stepDB (db : DB) : Op → DB
  | .opGet _ _ _ => db
  | .opList _ _ => db
  | .opAddFull t d => (add_full_record db t d).1
  | .opAdd t i n q => (add_record db t i n q).1
  | .opUpdate t i d => (update_full_record db t i d).1
  | .opDelete t i => (delete_record db t i).1
  | .opMoveRO i f => (move_reserve_to_offering_run db i f).1
  | .opMoveOD i f => (move_offering_to_deal_run db i f).1

/-- States reachable from the freshly initialized database through the
core operations. -/
inductive Reachable : DB → Prop where
  | init : Reachable emptyDB
  | step : ∀ {db : DB} (op : Op), Reachable db → Reachable (stepDB db op)

/-- Every row of the table has a non-null name. -/
abbrev goodTable (tbl : Table) : Prop :=
  ∀ r ∈ tbl, fieldGet r.fields "name" ≠ .null

/-- Every row of every stage table has a non-null name. -/
abbrev GoodDB (db : DB) : Prop :=
  goodTable db.reserve ∧ goodTable db.offering ∧ goodTable db.deal

/-- The 25 all-null non-id fields with only `name` set: fixture rows. -/
def mkFields (name : Value) : List (String × Value) :=
  NONID_COLUMNS.map (fun c => (c, if c = "name" then name else .null))

/-! ### Basic lemmas about the embedding -/

theorem validTable_cases {t : String} (h : validTable t = true) :
    t = "reserve" ∨ t = "offering" ∨ t = "deal" := by
  simpa [validTable, or_assoc] using h

theorem setTable_table_self (db : DB) (t : String) :
    db.setTable t (db.table t) = db := by
  by_cases h1 : t = "reserve"
  · simp [DB.table, DB.setTable, h1]
  · by_cases h2 : t = "offering" <;> simp [DB.table, DB.setTable, h1, h2]

theorem table_setTable_same (db : DB) (t : String) (tbl : Table)
    (h : validTable t = true) : (db.setTable t tbl).table t = tbl := by
  rcases validTable_cases h with rfl | rfl | rfl <;>
    simp [DB.table, DB.setTable]

theorem table_setTable_other (db : DB) (t t' : String) (tbl : Table)
    (h : validTable t = true) (h' : validTable t' = true) (hne : t ≠ t') :
    (db.setTable t tbl).table t' = db.table t' := by
  rcases validTable_cases h with rfl | rfl | rfl <;>
    rcases validTable_cases h' with rfl | rfl | rfl <;>
      simp_all [DB.table, DB.setTable]

theorem lookup_map_self (f : String → Value) :
    ∀ (l : List String) (c : String), c ∈ l →
      List.lookup c (l.map (fun x => (x, f x))) = some (f c) := by
  intro l
  induction l with
  | nil => intro c hc; cases hc
  | cons a l ih =>
    intro c hc
    by_cases h : c = a
    · subst h; simp [List.lookup]
    · have hb : (c == a) = false := by simp [h]
      rcases List.mem_cons.mp hc with h' | h'
      · exact absurd h' h
      · rw [List.map_cons, List.lookup, hb]
        exact ih c h'

theorem fieldGet_mapCols (f : String → Value) {c : String}
    (hc : c ∈ NONID_COLUMNS) :
    fieldGet (NONID_COLUMNS.map (fun x => (x, f x))) c = f c := by
  simp [fieldGet, lookup_map_self f _ c hc]

theorem name_mem_NONID : "name" ∈ NONID_COLUMNS := by decide

theorem fieldGet_insertRow (i : Int) (d : Dict) {c : String}
    (hc : c ∈ NONID_COLUMNS) :
    fieldGet (insertRow i d).fields c = dictGetOrNull d c :=
  fieldGet_mapCols _ hc

theorem fieldGet_updateFields (d : Dict) {c : String}
    (hc : c ∈ NONID_COLUMNS) :
    fieldGet (updateFields d) c = dictGetOrNull d c :=
  fieldGet_mapCols _ hc

theorem lookupRow_mem {tbl : Table} {i : Int} {r : Row}
    (h : lookupRow tbl i = some r) : r ∈ tbl ∧ r.id = i := by
  refine ⟨List.mem_of_find?_eq_some h, ?_⟩
  simpa using List.find?_some h

theorem hasId_false_iff {tbl : Table} {i : Int} :
    hasId tbl i = false ↔ lookupRow tbl i = none := by
  cases h : lookupRow tbl i <;> simp [hasId, h]

theorem hasId_true_iff {tbl : Table} {i : Int} :
    hasId tbl i = true ↔ ∃ r, lookupRow tbl i = some r := by
  cases h : lookupRow tbl i <;> simp [hasId, h]

theorem filter_ne_of_hasId_false {tbl : Table} {i : Int}
    (h : hasId tbl i = false) :
    tbl.filter (fun r => r.id != i) = tbl := by
  have hall := List.find?_eq_none.mp (hasId_false_iff.mp h)
  refine List.filter_eq_self.mpr ?_
  intro r hr
  simpa [bne] using hall r hr

theorem lookupRow_filter_ne (tbl : Table) (i : Int) :
    lookupRow (tbl.filter (fun r => r.id != i)) i = none := by
  refine List.find?_eq_none.mpr ?_
  intro r hr
  simpa [bne] using (List.mem_filter.mp hr).2

theorem lookupRow_cons (r : Row) (tbl : Table) (i : Int) :
    lookupRow (r :: tbl) i =
      if r.id == i then some r else lookupRow tbl i := by
  cases hb : r.id == i <;> simp [lookupRow, List.find?_cons, hb]

theorem lookupRow_map_update (fs : List (String × Value)) :
    ∀ (tbl : Table) (i : Int), hasId tbl i = true →
      lookupRow (tbl.map (fun r => if r.id == i then ⟨r.id, fs⟩ else r)) i
        = some ⟨i, fs⟩ := by
  intro tbl
  induction tbl with
  | nil => intro i h; simp [hasId, lookupRow] at h
  | cons r tbl ih =>
    intro i h
    by_cases hr : r.id = i
    · simp [List.map_cons, lookupRow_cons, hr]
    · have h' : hasId tbl i = true := by
        unfold hasId at h ⊢
        rw [lookupRow_cons] at h
        simpa [hr] using h
      simpa [List.map_cons, lookupRow_cons, hr] using ih i h'

theorem filter_map_update (fs : List (String × Value)) :
    ∀ (tbl : Table) (i : Int),
      ((tbl.map (fun r => if r.id == i then ⟨r.id, fs⟩ else r)).filter
          (fun r => r.id != i))
        = tbl.filter (fun r => r.id != i) := by
  intro tbl
  induction tbl with
  | nil => intro i; rfl
  | cons r tbl ih =>
    intro i
    by_cases hr : r.id = i
    · simpa [List.map_cons, List.filter_cons, hr] using ih i
    · simpa [List.map_cons, List.filter_cons, hr] using ih i

theorem le_tableMax_of_mem :
    ∀ {tbl : Table} {r : Row}, r ∈ tbl →
      ∃ m, tableMax tbl = some m ∧ r.id ≤ m := by
  intro tbl
  induction tbl with
  | nil => intro r h; cases h
  | cons a tbl ih =>
    intro r h
    rcases List.mem_cons.mp h with rfl | h'
    · cases htm : tableMax tbl with
      | none => exact ⟨r.id, by simp [tableMax, htm], le_refl _⟩
      | some m => exact ⟨max r.id m, by simp [tableMax, htm], le_max_left _ _⟩
    · rcases ih h' with ⟨m, hm, hle⟩
      refine ⟨max a.id m, ?_, le_trans hle (le_max_right _ _)⟩
      simp [tableMax, hm]

theorem lt_freshId_of_mem {tbl : Table} {r : Row} (h : r ∈ tbl) :
    r.id < freshId tbl := by
  rcases le_tableMax_of_mem h with ⟨m, hm, hle⟩
  simp only [freshId, hm]
  omega

theorem transferRun_error {src dst : Table} {rid : Int} {f : Option Fault}
    {e : DBError} (h : (transferRun src dst rid f).2 = .error e) :
    (transferRun src dst rid f).1 = (src, dst) := by
  cases hl : lookupRow src rid with
  | none => simp [transferRun, hl]
  | some r =>
    cases f with
    | some fa => simp [transferRun, hl]
    | none =>
      by_cases hn : fieldGet r.fields "name" = .null
      · simp [transferRun, hl, hn]
      · simp [transferRun, hl, hn] at h

theorem transferRun_ok {src dst : Table} {rid : Int} {f : Option Fault}
    {n : Int} (h : (transferRun src dst rid f).2 = .ok n) :
    ∃ r, lookupRow src rid = some r ∧ f = none ∧
      fieldGet r.fields "name" ≠ .null ∧ n = freshId dst ∧
      transferRun src dst rid f =
        ((src.filter (fun x => x.id != rid),
          dst ++ [⟨freshId dst,
            NONID_COLUMNS.map (fun c => (c, fieldGet r.fields c))⟩]),
         .ok (freshId dst)) := by
  cases hl : lookupRow src rid with
  | none => simp [transferRun, hl] at h
  | some r =>
    cases f with
    | some fa => simp [transferRun, hl] at h
    | none =>
      by_cases hn : fieldGet r.fields "name" = .null
      · simp [transferRun, hl, hn] at h
      · have hres : (transferRun src dst rid none).2 = .ok (freshId dst) := by
          simp [transferRun, hl, hn]
        refine ⟨r, rfl, rfl, hn, ?_, ?_⟩
        · rw [hres] at h
          injection h with h
          exact h.symm
        · simp [transferRun, hl, hn]

/-! ### Preservation of the non-null-name invariant -/

theorem goodTable_table {db : DB} (h : GoodDB db) (t : String) :
    goodTable (db.table t) := by
  by_cases h1 : t = "reserve"
  · simpa [DB.table, h1] using h.1
  · by_cases h2 : t = "offering"
    · simpa [DB.table, h1, h2] using h.2.1
    · simpa [DB.table, h1, h2] using h.2.2

theorem goodDB_setTable {db : DB} {tbl : Table} (h : GoodDB db)
    (hg : goodTable tbl) (t : String) : GoodDB (db.setTable t tbl) := by
  by_cases h1 : t = "reserve"
  · simp only [DB.setTable, if_pos h1]
    exact ⟨hg, h.2.1, h.2.2⟩
  · by_cases h2 : t = "offering"
    · simp only [DB.setTable, if_neg h1, if_pos h2]
      exact ⟨h.1, hg, h.2.2⟩
    · simp only [DB.setTable, if_neg h1, if_neg h2]
      exact ⟨h.1, h.2.1, hg⟩

theorem goodTable_append {t1 t2 : Table} (h1 : goodTable t1)
    (h2 : goodTable t2) : goodTable (t1 ++ t2) := by
  intro r hr
  rcases List.mem_append.mp hr with h | h
  · exact h1 r h
  · exact h2 r h

theorem goodTable_filter {tbl : Table} (p : Row → Bool)
    (h : goodTable tbl) : goodTable (tbl.filter p) :=
  fun r hr => h r (List.mem_filter.mp hr).1

theorem goodTable_singleton {r : Row}
    (h : fieldGet r.fields "name" ≠ .null) : goodTable [r] := by
  intro x hx
  rw [List.mem_singleton] at hx
  subst hx
  exact h

theorem add_full_record_good (db : DB) (t : String) (d : Dict)
    (h : GoodDB db) : GoodDB (add_full_record db t d).1 := by
  unfold add_full_record
  dsimp only
  split
  · split
    · exact h
    · split
      · exact h
      · split
        · exact h
        · refine goodDB_setTable h (goodTable_append (goodTable_table h t)
            (goodTable_singleton ?_)) t
          rw [fieldGet_insertRow _ _ name_mem_NONID]
          assumption
      · refine goodDB_setTable h (goodTable_append (goodTable_table h t)
          (goodTable_singleton ?_)) t
        rw [fieldGet_insertRow _ _ name_mem_NONID]
        assumption
  · exact h

theorem add_record_good (db : DB) (t : String) (i : Int) (n q : Value)
    (h : GoodDB db) : GoodDB (add_record db t i n q).1 := by
  unfold add_record
  dsimp only
  split
  · split
    · exact h
    · split
      · exact h
      · refine goodDB_setTable h (goodTable_append (goodTable_table h t)
          (goodTable_singleton ?_)) t
        rw [fieldGet_mapCols _ name_mem_NONID]
        simpa using by assumption
  · exact h

theorem update_full_record_good (db : DB) (t : String) (i : Int) (d : Dict)
    (h : GoodDB db) : GoodDB (update_full_record db t i d).1 := by
  unfold update_full_record
  dsimp only
  split
  · split
    · split
      · exact h
      · refine goodDB_setTable h ?_ t
        intro r hr
        rcases List.mem_map.mp hr with ⟨r₀, hr₀, rfl⟩
        by_cases he : (r₀.id == i) = true
        · rw [if_pos he]
          rw [fieldGet_updateFields _ name_mem_NONID]
          assumption
        · rw [if_neg he]
          exact goodTable_table h t r₀ hr₀
    · exact h
  · exact h

theorem delete_record_good (db : DB) (t : String) (i : Int)
    (h : GoodDB db) : GoodDB (delete_record db t i).1 := by
  unfold delete_record
  dsimp only
  split
  · exact goodDB_setTable h (goodTable_filter _ (goodTable_table h t)) t
  · exact h

theorem transferRun_good {src dst : Table} (rid : Int) (f : Option Fault)
    (hs : goodTable src) (hd : goodTable dst) :
    goodTable (transferRun src dst rid f).1.1 ∧
      goodTable (transferRun src dst rid f).1.2 := by
  cases hl : lookupRow src rid with
  | none =>
    have hrun : transferRun src dst rid f = ((src, dst), .error .notFound) := by
      simp [transferRun, hl]
    rw [hrun]
    exact ⟨hs, hd⟩
  | some r =>
    cases f with
    | some fa =>
      have hrun : transferRun src dst rid (some fa) =
          ((src, dst), .error .transactionFailure) := by
        simp [transferRun, hl]
      rw [hrun]
      exact ⟨hs, hd⟩
    | none =>
      by_cases hn : fieldGet r.fields "name" = .null
      · have hrun : transferRun src dst rid none =
            ((src, dst), .error .notNullViolation) := by
          simp [transferRun, hl, hn]
        rw [hrun]
        exact ⟨hs, hd⟩
      · have hrun : transferRun src dst rid none =
            ((src.filter (fun x => x.id != rid),
              dst ++ [⟨freshId dst,
                NONID_COLUMNS.map (fun c => (c, fieldGet r.fields c))⟩]),
             .ok (freshId dst)) := by
          simp [transferRun, hl, hn]
        rw [hrun]
        refine ⟨goodTable_filter _ hs,
          goodTable_append hd (goodTable_singleton ?_)⟩
        rw [fieldGet_mapCols _ name_mem_NONID]
        exact hn

theorem move_reserve_to_offering_run_good (db : DB) (rid : Int)
    (f : Option Fault) (h : GoodDB db) :
    GoodDB (move_reserve_to_offering_run db rid f).1 := by
  have hg := transferRun_good rid f h.1 h.2.1
  exact ⟨hg.1, hg.2, h.2.2⟩

theorem move_offering_to_deal_run_good (db : DB) (rid : Int)
    (f : Option Fault) (h : GoodDB db) :
    GoodDB (move_offering_to_deal_run db rid f).1 := by
  have hg := transferRun_good rid f h.2.1 h.2.2
  exact ⟨h.1, hg.1, hg.2⟩

theorem goodDB_step (db : DB) (op : Op) (h : GoodDB db) :
    GoodDB (stepDB db op) := by
  cases op with
  | opGet t i c => exact h
  | opList t c => exact h
  | opAddFull t d => exact add_full_record_good db t d h
  | opAdd t i n q => exact add_record_good db t i n q h
  | opUpdate t i d => exact update_full_record_good db t i d h
  | opDelete t i => exact delete_record_good db t i h
  | opMoveRO i f => exact move_reserve_to_offering_run_good db i f h
  | opMoveOD i f => exact move_offering_to_deal_run_good db i f h

theorem goodDB_reachable {db : DB} (h : Reachable db) : GoodDB db := by
  induction h with
  | init =>
    refine ⟨?_, ?_, ?_⟩ <;> intro r hr <;> simp [emptyDB] at hr
  | step op _ ih => exact goodDB_step _ op ih

/-- Membership of a fresh row appended at the end of a table. -/
theorem hasId_append (tbl : Table) (r : Row) :
    hasId (tbl ++ [r]) r.id = true := by
  induction tbl with
  | nil => simp [hasId, lookupRow, List.find?]
  | cons a tbl ih =>
    rw [List.cons_append]
    unfold hasId at ih ⊢
    rw [lookupRow_cons]
    cases hb : a.id == r.id <;> simp [hb, ih]

/-- add_full_record on a duplicate integer id: uniqueness violation,
database unchanged. -/
theorem add_full_dup {db : DB} {t : String} {d : Dict} {i : Int}
    (hv : validTable t = true) (hname : dictGetOrNull d "name" ≠ .null)
    (hid : dictGetOrNull d "id" = .int i)
    (hdup : hasId (db.table t) i = true) :
    add_full_record db t d = (db, .error .uniqueViolation) := by
  simp [add_full_record, hv, hid, hname, hdup]

/-- add_full_record on a fresh integer id: the row is appended and the
supplied id is returned. -/
theorem add_full_new {db : DB} {t : String} {d : Dict} {i : Int}
    (hv : validTable t = true) (hname : dictGetOrNull d "name" ≠ .null)
    (hid : dictGetOrNull d "id" = .int i)
    (hnew : hasId (db.table t) i = false) :
    add_full_record db t d =
      (db.setTable t (db.table t ++ [insertRow i d]), .ok i) := by
  have hg : dictGet d "id" = some (.int i) := by
    unfold dictGetOrNull at hid
    cases hg : dictGet d "id" with
    | none => rw [hg] at hid; simp at hid
    | some v => rw [hg] at hid; simp at hid; rw [hid]
  have hpy : pyIntOfId d = .ok i := by simp [pyIntOfId, hg]
  simp [add_full_record, hv, hid, hname, hnew, hpy]

/-- The row `INSERT INTO t (id, name, quantity) VALUES (?, ?, ?)` of
add_record produces: only id, name and quantity set, all other columns
NULL. -/
def addRecordRow (i : Int) (name quantity : Value) : Row :=
  ⟨i, NONID_COLUMNS.map (fun c =>
    (c, if c = "name" then name
        else if c = "quantity" then quantity else .null))⟩

/-- add_record on a duplicate id: uniqueness violation, database
unchanged. -/
theorem add_record_dup {db : DB} {t : String} {i : Int} {nm q : Value}
    (hv : validTable t = true) (hnm : nm ≠ .null)
    (hdup : hasId (db.table t) i = true) :
    add_record db t i nm q = (db, .error .uniqueViolation) := by
  simp [add_record, hv, hnm, hdup]

/-- add_record on a fresh id: the three-column row is appended and the
supplied id is returned. -/
theorem add_record_new {db : DB} {t : String} {i : Int} {nm q : Value}
    (hv : validTable t = true) (hnm : nm ≠ .null)
    (hnew : hasId (db.table t) i = false) :
    add_record db t i nm q =
      (db.setTable t (db.table t ++ [addRecordRow i nm q]), .ok i) := by
  simp [add_record, addRecordRow, hv, hnm, hnew]

/-! ### The claims -/

/-- C1: for every transfer call (either direction) that fails after
reading the source row — including the case where no row with the given
id exists in the source — the whole transaction is rolled back: the
returned state equals the pre-call state (source rows unchanged, no new
destination row), and the call reports an error. -/
theorem transfer_atomic_rollback (db : DB) (rid : Int) (f : Option Fault)
    (e : DBError) :
    ((move_reserve_to_offering_run db rid f).2 = .error e →
      (move_reserve_to_offering_run db rid f).1 = db) ∧
    ((move_offering_to_deal_run db rid f).2 = .error e →
      (move_offering_to_deal_run db rid f).1 = db) := by
  constructor
  · intro h
    have h' : (transferRun db.reserve db.offering rid f).2 = .error e := h
    have h1 := transferRun_error h'
    simp only [move_reserve_to_offering_run]
    rw [h1]
  · intro h
    have h' : (transferRun db.offering db.deal rid f).2 = .error e := h
    have h1 := transferRun_error h'
    simp only [move_offering_to_deal_run]
    rw [h1]

/-- Witness for C1: a faulted transfer of an existing reserve row and a
transfer of a missing offering row both leave the database untouched. -/
theorem transfer_atomic_rollback_witness :
    (move_reserve_to_offering_run
        (DB.mk [⟨1, mkFields (.text "Site A")⟩] [] []) 1 (some .onInsert)).1
      = DB.mk [⟨1, mkFields (.text "Site A")⟩] [] [] ∧
    (move_offering_to_deal_run
        (DB.mk [⟨1, mkFields (.text "Site A")⟩] [] []) 9 none).1
      = DB.mk [⟨1, mkFields (.text "Site A")⟩] [] [] :=
  ⟨(transfer_atomic_rollback (DB.mk [⟨1, mkFields (.text "Site A")⟩] [] [])
      1 (some .onInsert) .transactionFailure).1 (by decide),
   (transfer_atomic_rollback (DB.mk [⟨1, mkFields (.text "Site A")⟩] [] [])
      9 none .notFound).2 (by decide)⟩

/-- C2: when the source table contains a row with the given id and the
transfer succeeds, the source row is removed, exactly one new row is
appended to the destination whose every non-id field equals the
corresponding field of the source row, and the returned value is the id
assigned to that new destination row. -/
theorem transfer_success_moves_row (db : DB) (rid : Int) (r : Row)
    (n : Int) :
    (lookupRow db.reserve rid = some r →
      (move_reserve_to_offering db rid).2 = .ok n →
      ∃ nr : Row,
        (move_reserve_to_offering db rid).1.offering = db.offering ++ [nr] ∧
        nr.id = n ∧
        (∀ c ∈ NONID_COLUMNS, fieldGet nr.fields c = fieldGet r.fields c) ∧
        (move_reserve_to_offering db rid).1.reserve =
          db.reserve.filter (fun x => x.id != rid) ∧
        lookupRow (move_reserve_to_offering db rid).1.reserve rid = none) ∧
    (lookupRow db.offering rid = some r →
      (move_offering_to_deal db rid).2 = .ok n →
      ∃ nr : Row,
        (move_offering_to_deal db rid).1.deal = db.deal ++ [nr] ∧
        nr.id = n ∧
        (∀ c ∈ NONID_COLUMNS, fieldGet nr.fields c = fieldGet r.fields c) ∧
        (move_offering_to_deal db rid).1.offering =
          db.offering.filter (fun x => x.id != rid) ∧
        lookupRow (move_offering_to_deal db rid).1.offering rid = none) := by
  constructor
  · intro hl hok
    have hok' : (transferRun db.reserve db.offering rid none).2 = .ok n := hok
    rcases transferRun_ok hok' with ⟨r', hl', -, hname, hn, heq⟩
    rw [hl] at hl'
    injection hl' with hl'
    subst hl'
    refine ⟨⟨freshId db.offering,
      NONID_COLUMNS.map (fun c => (c, fieldGet r.fields c))⟩, ?_, hn.symm,
      fun c hc => fieldGet_mapCols _ hc, ?_, ?_⟩
    · show (transferRun db.reserve db.offering rid none).1.2 = _
      rw [heq]
    · show (transferRun db.reserve db.offering rid none).1.1 = _
      rw [heq]
    · show lookupRow (transferRun db.reserve db.offering rid none).1.1 rid = none
      rw [heq]
      exact lookupRow_filter_ne _ _
  · intro hl hok
    have hok' : (transferRun db.offering db.deal rid none).2 = .ok n := hok
    rcases transferRun_ok hok' with ⟨r', hl', -, hname, hn, heq⟩
    rw [hl] at hl'
    injection hl' with hl'
    subst hl'
    refine ⟨⟨freshId db.deal,
      NONID_COLUMNS.map (fun c => (c, fieldGet r.fields c))⟩, ?_, hn.symm,
      fun c hc => fieldGet_mapCols _ hc, ?_, ?_⟩
    · show (transferRun db.offering db.deal rid none).1.2 = _
      rw [heq]
    · show (transferRun db.offering db.deal rid none).1.1 = _
      rw [heq]
    · show lookupRow (transferRun db.offering db.deal rid none).1.1 rid = none
      rw [heq]
      exact lookupRow_filter_ne _ _

/-- Witness for C2: moving reserve row id 1 into an offering table that
already holds id 1 appends a new row with id 2 carrying the source
fields. -/
theorem transfer_success_moves_row_witness :
    (move_reserve_to_offering
        (DB.mk [⟨1, mkFields (.text "Site A")⟩] [⟨1, mkFields (.text "B")⟩] [])
        1).1.offering
      = [⟨1, mkFields (.text "B")⟩] ++ [⟨2, mkFields (.text "Site A")⟩] := by
  have h := (transfer_success_moves_row
    (DB.mk [⟨1, mkFields (.text "Site A")⟩] [⟨1, mkFields (.text "B")⟩] [])
    1 ⟨1, mkFields (.text "Site A")⟩ 2).1 (by decide) (by decide)
  rcases h with ⟨nr, hoff, hid, hfields, -, -⟩
  have hnr : nr = ⟨2, mkFields (.text "Site A")⟩ := by
    have := hoff
    rw [show (move_reserve_to_offering
      (DB.mk [⟨1, mkFields (.text "Site A")⟩] [⟨1, mkFields (.text "B")⟩] [])
      1).1.offering
        = [⟨1, mkFields (.text "B")⟩, ⟨2, mkFields (.text "Site A")⟩]
      from by decide] at this
    injection this with h1 h2
    injection h2 with h3 h4
    exact h3.symm
  rw [hoff, hnr]

/-- C3 counterexample: with an empty destination table, transferring
reserve row id 1 assigns destination id 1 — equal to the source id, so
the destination id is not "never equal to the source id". -/
theorem transfer_id_reuse_counterexample :
    (move_reserve_to_offering
        (DB.mk [⟨1, mkFields (.text "Site A")⟩] [] []) 1).2 = .ok 1 ∧
    lookupRow (move_reserve_to_offering
        (DB.mk [⟨1, mkFields (.text "Site A")⟩] [] []) 1).1.offering 1
      = some ⟨1, mkFields (.text "Site A")⟩ := by decide

/-- C3 (amended): the destination id of a successful transfer is the
destination table's own next rowid (freshId), computed independently of
the source id; in particular it differs from the source id whenever the
destination table already contains a row with that id. -/
theorem transfer_fresh_id (db : DB) (rid n : Int) :
    ((move_reserve_to_offering db rid).2 = .ok n →
      n = freshId db.offering ∧
      (hasId db.offering rid = true → n ≠ rid)) ∧
    ((move_offering_to_deal db rid).2 = .ok n →
      n = freshId db.deal ∧
      (hasId db.deal rid = true → n ≠ rid)) := by
  constructor
  · intro hok
    have hok' : (transferRun db.reserve db.offering rid none).2 = .ok n := hok
    rcases transferRun_ok hok' with ⟨r', -, -, -, hn, -⟩
    refine ⟨hn, ?_⟩
    intro hhas
    rcases hasId_true_iff.mp hhas with ⟨r₀, hr₀⟩
    have hmem := lookupRow_mem hr₀
    have hlt := lt_freshId_of_mem hmem.1
    rw [hmem.2] at hlt
    omega
  · intro hok
    have hok' : (transferRun db.offering db.deal rid none).2 = .ok n := hok
    rcases transferRun_ok hok' with ⟨r', -, -, -, hn, -⟩
    refine ⟨hn, ?_⟩
    intro hhas
    rcases hasId_true_iff.mp hhas with ⟨r₀, hr₀⟩
    have hmem := lookupRow_mem hr₀
    have hlt := lt_freshId_of_mem hmem.1
    rw [hmem.2] at hlt
    omega

/-- Witness for C3 (amended): with offering already holding id 1, the
transfer of reserve id 1 returns freshId 2, different from the source
id. -/
theorem transfer_fresh_id_witness :
    (2 : Int) = freshId [⟨1, mkFields (.text "B")⟩] ∧ (2 : Int) ≠ 1 := by
  have h := (transfer_fresh_id
    (DB.mk [⟨1, mkFields (.text "Site A")⟩] [⟨1, mkFields (.text "B")⟩] [])
    1 2).1 (by decide)
  exact ⟨h.1, h.2 (by decide)⟩

/-- C4 at the failing input: add_full_record with a dict that has a name
but no id key COMMITS a row (sqlite auto-assigns id 1) and only then
raises KeyError on `int(data["id"])` — an error is reported together
with a persisted state change, refuting "every reported error
corresponds to zero observable state change". -/
theorem add_full_record_orphan_row_eval :
    add_full_record emptyDB "reserve" [("name", .text "X")] =
      (DB.mk [⟨1, mkFields (.text "X")⟩] [] [], .error .keyError) ∧
    DB.mk [⟨1, mkFields (.text "X")⟩] [] [] ≠ emptyDB := by decide

/-- C5 at the failing input: the default column list of list_table is
the full 26-column ALL_COLUMNS — not the proper summary subset the spec
(and the function's own docstring, which promises id, name, quantity)
describes; a default listing therefore returns all 26 values per row. -/
theorem list_table_default_cols_eval :
    defaultListCols = ALL_COLUMNS ∧ ALL_COLUMNS.length = 26 ∧
    list_table (DB.mk [⟨1, mkFields (.text "Site A")⟩] [] []) "reserve" none
      = .ok [ALL_COLUMNS.map (rowGet ⟨1, mkFields (.text "Site A")⟩)] := by
  decide

/-- C6: inserting a record whose id duplicates a row of the same table
fails with the uniqueness violation and leaves the database unchanged,
while inserting the same id into two different tables succeeds for
both — id uniqueness is per-table, not global. -/
theorem insert_duplicate_per_table (db : DB) (d : Dict) (i : Int)
    (nm q : Value) (t t₁ t₂ : String) (hv : validTable t = true)
    (hv₁ : validTable t₁ = true) (hv₂ : validTable t₂ = true)
    (hne : t₁ ≠ t₂) (hid : dictGetOrNull d "id" = .int i)
    (hname : dictGetOrNull d "name" ≠ .null) (hnm : nm ≠ .null) :
    (hasId (db.table t) i = true →
      add_full_record db t d = (db, .error .uniqueViolation) ∧
      add_record db t i nm q = (db, .error .uniqueViolation)) ∧
    (hasId (db.table t₁) i = false → hasId (db.table t₂) i = false →
      (add_full_record db t₁ d).2 = .ok i ∧
      hasId ((add_full_record db t₁ d).1.table t₁) i = true ∧
      (add_full_record (add_full_record db t₁ d).1 t₂ d).2 = .ok i ∧
      hasId ((add_full_record (add_full_record db t₁ d).1 t₂ d).1.table t₂) i
        = true) ∧
    (hasId (db.table t₁) i = false → hasId (db.table t₂) i = false →
      (add_record db t₁ i nm q).2 = .ok i ∧
      hasId ((add_record db t₁ i nm q).1.table t₁) i = true ∧
      (add_record (add_record db t₁ i nm q).1 t₂ i nm q).2 = .ok i ∧
      hasId ((add_record (add_record db t₁ i nm q).1 t₂ i nm q).1.table t₂) i
        = true) := by
  refine ⟨?_, ?_, ?_⟩
  · intro hdup
    exact ⟨add_full_dup hv hname hid hdup, add_record_dup hv hnm hdup⟩
  · intro h1 h2
    have e1 := add_full_new hv₁ hname hid h1
    have hdb₁ : (add_full_record db t₁ d).1 =
        db.setTable t₁ (db.table t₁ ++ [insertRow i d]) := by rw [e1]
    have ht₂ : (add_full_record db t₁ d).1.table t₂ = db.table t₂ := by
      rw [hdb₁, table_setTable_other db t₁ t₂ _ hv₁ hv₂ hne]
    have h2' : hasId ((add_full_record db t₁ d).1.table t₂) i = false := by
      rw [ht₂]; exact h2
    have e2 := add_full_new hv₂ hname hid h2'
    refine ⟨by rw [e1], ?_, by rw [e2], ?_⟩
    · rw [hdb₁, table_setTable_same db t₁ _ hv₁]
      exact hasId_append (db.table t₁) (insertRow i d)
    · have : (add_full_record (add_full_record db t₁ d).1 t₂ d).1 =
          (add_full_record db t₁ d).1.setTable t₂
            ((add_full_record db t₁ d).1.table t₂ ++ [insertRow i d]) := by
        rw [e2]
      rw [this, table_setTable_same _ t₂ _ hv₂]
      exact hasId_append _ (insertRow i d)
  · intro h1 h2
    have e1 := add_record_new (q := q) hv₁ hnm h1
    have hdb₁ : (add_record db t₁ i nm q).1 =
        db.setTable t₁ (db.table t₁ ++ [addRecordRow i nm q]) := by rw [e1]
    have ht₂ : (add_record db t₁ i nm q).1.table t₂ = db.table t₂ := by
      rw [hdb₁, table_setTable_other db t₁ t₂ _ hv₁ hv₂ hne]
    have h2' : hasId ((add_record db t₁ i nm q).1.table t₂) i = false := by
      rw [ht₂]; exact h2
    have e2 := add_record_new (q := q) hv₂ hnm h2'
    refine ⟨by rw [e1], ?_, by rw [e2], ?_⟩
    · rw [hdb₁, table_setTable_same db t₁ _ hv₁]
      exact hasId_append (db.table t₁) (addRecordRow i nm q)
    · have : (add_record (add_record db t₁ i nm q).1 t₂ i nm q).1 =
          (add_record db t₁ i nm q).1.setTable t₂
            ((add_record db t₁ i nm q).1.table t₂ ++ [addRecordRow i nm q]) := by
        rw [e2]
      rw [this, table_setTable_same _ t₂ _ hv₂]
      exact hasId_append _ (addRecordRow i nm q)

/-- Witness for C6: duplicate id 1 in reserve is rejected by both insert
paths with the database unchanged; the same id inserted into offering
(add_full_record) and into deal (add_record) succeeds for both. -/
theorem insert_duplicate_per_table_witness :
    add_full_record (DB.mk [⟨1, mkFields (.text "Site A")⟩] [] [])
        "reserve" [("id", .int 1), ("name", .text "N")]
      = (DB.mk [⟨1, mkFields (.text "Site A")⟩] [] [],
         .error .uniqueViolation) ∧
    add_record (DB.mk [⟨1, mkFields (.text "Site A")⟩] [] [])
        "reserve" 1 (.text "N") (.text "Q")
      = (DB.mk [⟨1, mkFields (.text "Site A")⟩] [] [],
         .error .uniqueViolation) ∧
    (add_full_record (DB.mk [⟨1, mkFields (.text "Site A")⟩] [] [])
        "offering" [("id", .int 1), ("name", .text "N")]).2 = .ok 1 ∧
    (add_record (DB.mk [⟨1, mkFields (.text "Site A")⟩] [] [])
        "deal" 1 (.text "N") (.text "Q")).2 = .ok 1 := by
  have h := insert_duplicate_per_table
    (DB.mk [⟨1, mkFields (.text "Site A")⟩] [] [])
    [("id", .int 1), ("name", .text "N")] 1 (.text "N") (.text "Q")
    "reserve" "offering" "deal"
    (by decide) (by decide) (by decide) (by decide) (by decide)
    (by decide) (by decide)
  have h' := insert_duplicate_per_table
    (DB.mk [⟨1, mkFields (.text "Site A")⟩] [] [])
    [("id", .int 1), ("name", .text "N")] 1 (.text "N") (.text "Q")
    "reserve" "deal" "offering"
    (by decide) (by decide) (by decide) (by decide) (by decide)
    (by decide) (by decide)
  exact ⟨(h.1 (by decide)).1, (h.1 (by decide)).2,
    (h.2.1 (by decide) (by decide)).1,
    (h'.2.2 (by decide) (by decide)).1⟩

/-- C7 counterexample: on a table containing id 1, update_full_record
with an empty dict does not return an affected-count — it fails with the
NOT NULL violation on name (because absent fields are overwritten with
null), leaving the table unchanged. -/
theorem update_missing_name_counterexample :
    update_full_record (DB.mk [⟨1, mkFields (.text "Site A")⟩] [] [])
        "reserve" 1 []
      = (DB.mk [⟨1, mkFields (.text "Site A")⟩] [] [],
         .error .notNullViolation) := by decide

/-- C7 (amended): update_full_record overwrites every non-id column with
the supplied value or null when absent, keeps the id, and returns the
affected count (1 if the row exists, 0 otherwise) — provided the dict
supplies a non-null name whenever a row matches; when the dict would set
name to null on an existing row the statement instead fails with the NOT
NULL violation and the database is unchanged. -/
theorem update_overwrite_semantics (db : DB) (t : String) (i : Int)
    (d : Dict) (hv : validTable t = true) :
    (hasId (db.table t) i = false →
      update_full_record db t i d = (db, .ok 0)) ∧
    (hasId (db.table t) i = true → dictGetOrNull d "name" ≠ .null →
      (update_full_record db t i d).2 = .ok 1 ∧
      lookupRow ((update_full_record db t i d).1.table t) i
        = some ⟨i, updateFields d⟩ ∧
      (∀ c ∈ NONID_COLUMNS, fieldGet (updateFields d) c = dictGetOrNull d c) ∧
      ((update_full_record db t i d).1.table t).filter (fun r => r.id != i)
        = (db.table t).filter (fun r => r.id != i)) ∧
    (hasId (db.table t) i = true → dictGetOrNull d "name" = .null →
      update_full_record db t i d = (db, .error .notNullViolation)) := by
  refine ⟨?_, ?_, ?_⟩
  · intro h
    simp [update_full_record, hv, h]
  · intro h hn
    have he : update_full_record db t i d =
        (db.setTable t ((db.table t).map (fun r =>
          if r.id == i then ⟨r.id, updateFields d⟩ else r)), .ok 1) := by
      simp [update_full_record, hv, h, hn]
    refine ⟨by rw [he], ?_, fun c hc => fieldGet_updateFields d hc, ?_⟩
    · rw [he]
      dsimp only
      rw [table_setTable_same db t _ hv]
      exact lookupRow_map_update (updateFields d) (db.table t) i h
    · rw [he]
      dsimp only
      rw [table_setTable_same db t _ hv]
      exact filter_map_update (updateFields d) (db.table t) i
  · intro h hn
    simp [update_full_record, hv, h, hn]

/-- Witness for C7 (amended): updating a missing id affects 0 rows, and
updating an existing one with a named dict affects 1. -/
theorem update_overwrite_semantics_witness :
    update_full_record (DB.mk [⟨1, mkFields (.text "Site A")⟩] [] [])
        "reserve" 2 [("name", .text "N")]
      = (DB.mk [⟨1, mkFields (.text "Site A")⟩] [] [], .ok 0) ∧
    (update_full_record (DB.mk [⟨1, mkFields (.text "Site A")⟩] [] [])
        "reserve" 1 [("name", .text "N")]).2 = .ok 1 := by
  have h2 := update_overwrite_semantics
    (DB.mk [⟨1, mkFields (.text "Site A")⟩] [] []) "reserve" 2
    [("name", .text "N")] (by decide)
  have h1 := update_overwrite_semantics
    (DB.mk [⟨1, mkFields (.text "Site A")⟩] [] []) "reserve" 1
    [("name", .text "N")] (by decide)
  exact ⟨h2.1 (by decide), (h1.2.1 (by decide) (by decide)).1⟩

/-- C8: delete and update on an id absent from the (valid) table return
an affected-count of 0 without raising, and the whole database is
unchanged. -/
theorem absent_id_affects_zero (db : DB) (t : String) (i : Int) (d : Dict)
    (hv : validTable t = true) (h : hasId (db.table t) i = false) :
    delete_record db t i = (db, .ok 0) ∧
    update_full_record db t i d = (db, .ok 0) := by
  constructor
  · simp [delete_record, hv, h, filter_ne_of_hasId_false h,
      setTable_table_self]
  · simp [update_full_record, hv, h]

/-- Witness for C8 on an empty deal table. -/
theorem absent_id_affects_zero_witness :
    delete_record emptyDB "deal" 3 = (emptyDB, .ok 0) ∧
    update_full_record emptyDB "deal" 3 [] = (emptyDB, .ok 0) :=
  absent_id_affects_zero emptyDB "deal" 3 [] (by decide) (by decide)

/-- C9: a transfer never touches the third table — every
move_reserve_to_offering call (successful, failing or faulted) leaves
the deal table unchanged, and every move_offering_to_deal call leaves
the reserve table unchanged. -/
theorem transfer_frame_third_table (db : DB) (rid : Int)
    (f : Option Fault) :
    (move_reserve_to_offering_run db rid f).1.deal = db.deal ∧
    (move_offering_to_deal_run db rid f).1.reserve = db.reserve :=
  ⟨rfl, rfl⟩

/-- C10: in every state reachable from the empty schema via the core
operations every row of all three tables has a non-null name; inserts
with a null name and updates that would null the name of an existing row
fail with the NOT NULL violation leaving the database unchanged; a
successful transfer copies the (non-null) name to the new destination
row. -/
theorem name_invariant :
    (∀ db, Reachable db → GoodDB db) ∧
    (∀ (db : DB) (t : String) (d : Dict), validTable t = true →
      dictGetOrNull d "name" = .null →
      add_full_record db t d = (db, .error .notNullViolation)) ∧
    (∀ (db : DB) (t : String) (i : Int) (q : Value), validTable t = true →
      add_record db t i .null q = (db, .error .notNullViolation)) ∧
    (∀ (db : DB) (t : String) (i : Int) (d : Dict), validTable t = true →
      hasId (db.table t) i = true → dictGetOrNull d "name" = .null →
      update_full_record db t i d = (db, .error .notNullViolation)) ∧
    (∀ (db : DB) (rid : Int) (r : Row) (n : Int),
      lookupRow db.reserve rid = some r →
      (move_reserve_to_offering db rid).2 = .ok n →
      ∃ nr : Row,
        (move_reserve_to_offering db rid).1.offering = db.offering ++ [nr] ∧
        fieldGet nr.fields "name" = fieldGet r.fields "name" ∧
        fieldGet nr.fields "name" ≠ .null) := by
  refine ⟨fun db h => goodDB_reachable h, ?_, ?_, ?_, ?_⟩
  · intro db t d hv hn
    simp [add_full_record, hv, hn]
  · intro db t i q hv
    simp [add_record, hv]
  · intro db t i d hv hh hn
    simp [update_full_record, hv, hh, hn]
  · intro db rid r n hl hok
    have hok' : (transferRun db.reserve db.offering rid none).2 = .ok n := hok
    rcases transferRun_ok hok' with ⟨r', hl', -, hname, -, heq⟩
    rw [hl] at hl'
    injection hl' with hl'
    subst hl'
    refine ⟨⟨freshId db.offering,
      NONID_COLUMNS.map (fun c => (c, fieldGet r.fields c))⟩, ?_, ?_, ?_⟩
    · show (transferRun db.reserve db.offering rid none).1.2 = _
      rw [heq]
    · exact fieldGet_mapCols _ name_mem_NONID
    · rw [fieldGet_mapCols _ name_mem_NONID]
      exact hname

/-- Witness for C10: a two-step reachable state satisfies the invariant,
and an insert without a name is rejected with no state change. -/
theorem name_invariant_witness :
    GoodDB (stepDB emptyDB (Op.opAdd "reserve" 1 (.text "Site A") .null)) ∧
    add_full_record emptyDB "reserve" [("region", .text "R")]
      = (emptyDB, .error .notNullViolation) :=
  ⟨name_invariant.1 _ (Reachable.step _ Reachable.init),
   name_invariant.2.1 emptyDB "reserve" [("region", .text "R")]
     (by decide) (by decide)⟩

end TriDB
